import Mathlib

set_option maxRecDepth 100000

/-!
Verification development for the idobata-sns-agent polling bot.

Shallow embedding of the repository's Python sources:
  * `src/main.py`            — reply post-processing (mention stripping, truncation)
  * `src/utils/file_utils.py`— the replied-tweets dedup ledger
  * `src/twitter/auth.py`    — OAuth token cache / refresh
  * `src/twitter/api.py`     — conversation-history post-processing
  * `src/llm/api.py`         — reply-strategy selection and question:// URL rewriting

External effects (HTTP calls to the deliberation backend, the completion API,
the token endpoint) are modelled as oracle values threaded explicitly; the
token file and the ledger file are modelled as explicit state values.
Python strings are modelled as Lean `String` (both count code points);
machine integers do not occur (Python ints are unbounded, modelled as `Int`).
-/

/-! ## src/main.py -/

-- TWITTER_CHAR_LIMIT = 280
def TWITTER_CHAR_LIMIT : Nat := 280

/-- Model of Python `str` whitespace test used by `\s` and `str.strip`. -/
def isPySpace (c : Char) : Bool := c.isWhitespace

/-- Model of the regex class `\w` (word character): alphanumeric or underscore.
(The Python default is Unicode-aware; ASCII behaviour, which all claims use,
agrees with `Char.isAlphanum`.) -/
def isWordChar (c : Char) : Bool := c.isAlphanum || c = '_'

/-- `remove_mention_prefix` from `src/main.py`: `re.sub(r"^\s*@\w+\s+", "", t)`.
Since the pattern is anchored at the start (no `re.M`), at most one match is
removed.  The character classes of consecutive greedy pieces are disjoint
(`\s*` then `@`, `\w+` then `\s+`), so greedy scanning without backtracking
is exact. -/
def remove_mention_prefix (reply_text : Option String) : Option String :=
  match reply_text with
  | none => none
  | some s =>
    let r1 := s.data.dropWhile isPySpace          -- ^\s*
    match r1 with
    | '@' :: r2 =>                                 -- @
      let w  := r2.takeWhile isWordChar            -- \w+
      let r3 := r2.dropWhile isWordChar
      if w.isEmpty then some s                     -- \w+ needs at least one char
      else
        let ws2 := r3.takeWhile isPySpace          -- \s+
        let r4  := r3.dropWhile isPySpace
        if ws2.isEmpty then some s                 -- \s+ needs at least one char
        else some (String.mk r4)                   -- whole match replaced by ""
    | _ => some s

/-- `truncate_reply_if_needed` from `src/main.py`. -/
def truncate_reply_if_needed (reply_text : Option String) : Option String :=
  match reply_text with
  | none => none
  | some s =>
    if s.length ≤ TWITTER_CHAR_LIMIT then some s
    else some (String.mk (s.data.take (TWITTER_CHAR_LIMIT - 3)) ++ "...")

/-! ## src/utils/file_utils.py

The replied-tweets file is modelled as the list of its lines (the trailing
`"\n"` written by `add_replied_tweet_id` is the line separator, so the line
content is exactly the id). -/

/-- Model of Python `str.strip()`: drop whitespace from both ends. -/
def pyStrip (s : String) : String :=
  String.mk (((s.data.dropWhile isPySpace).reverse.dropWhile isPySpace).reverse)

/-- Model of Python `str.startswith("#")`. -/
def startsWithHash (s : String) : Bool :=
  match s.data with
  | '#' :: _ => true
  | _ => false

/-- The filter applied per line by `read_replied_tweet_ids`:
`line.strip() and not line.strip().startswith("#")`. -/
def keptLine (l : String) : Bool := l ≠ "" && !startsWithHash l

/-- `read_replied_tweet_ids` from `src/utils/file_utils.py`: the set of
stripped, non-empty, non-comment lines. -/
def read_replied_tweet_ids (file : List String) : Finset String :=
  (((file.map pyStrip).filter keptLine)).toFinset

/-- `add_replied_tweet_id` from `src/utils/file_utils.py`: append the id as a
new line at the end of the file. -/
def add_replied_tweet_id (file : List String) (tweet_id : String) : List String :=
  file ++ [tweet_id]

/-! ## src/twitter/auth.py

The token file is modelled as `Option TokenRecord` (`none` = file absent);
wall-clock `int(time.time())` is passed in as `now`.  The outcome of the POST
to the token endpoint, `resp = requests.post(...).json()`, is modelled as
`Option RefreshResponse` (`none` = the JSON had no `access_token` key, in
which case the code raises).  The interactive `initial_auth` flow is an
opaque oracle `initial` (it reads stdin; no claim depends on it). -/

structure TokenRecord where
  access_token : String
  refresh_token : String
  expires_at : Int
deriving Repr, DecidableEq

structure RefreshResponse where
  access_token : String
  expires_in : Int
  /-- `resp.get('refresh_token', ...)`: the endpoint may omit the new
  refresh token. -/
  refresh_token : Option String
deriving Repr, DecidableEq

/-- `refresh_access_token` from `src/twitter/auth.py`.  On success the whole
updated response record is written to the token file and the access token is
returned; the result pair is `(returned access token, persisted record)`.
A response without `access_token` raises. -/
def refresh_access_token (now : Int) (old_refresh : String)
    (resp : Option RefreshResponse) : Except String (String × TokenRecord) :=
  match resp with
  | some r =>
    -- resp['expires_at'] = int(time.time()) + resp['expires_in']
    -- resp['refresh_token'] = resp.get('refresh_token', refresh_token)
    let written : TokenRecord :=
      { access_token := r.access_token
        expires_at := now + r.expires_in
        refresh_token := r.refresh_token.getD old_refresh }
    .ok (r.access_token, written)
  | none => .error "token refresh error"

/-- `get_valid_token` from `src/twitter/auth.py`.  Result is the returned
access token paired with the token-file state after the call. -/
def get_valid_token (file : Option TokenRecord) (now : Int)
    (resp : Option RefreshResponse)
    (initial : Except String (String × TokenRecord)) :
    Except String (String × Option TokenRecord) :=
  match file with
  | some tokens =>
    -- use existing token if it's valid for at least 60 more seconds
    if tokens.expires_at > now + 60 then
      .ok (tokens.access_token, some tokens)
    else
      (refresh_access_token now tokens.refresh_token resp).map
        (fun p => (p.1, some p.2))
  | none => initial.map (fun p => (p.1, some p.2))

/-! ## src/twitter/api.py — fetch_conversation_history post-processing

Only the final, locally computed stage of `fetch_conversation_history` is
claim-relevant: given the formatted tweets of the conversation (built from
the search response), it sorts by `created_at`, removes the triggering
tweet, and caps the result at `max_tweets`.  `created_at` comes from
`tweet.get("created_at")`, hence `Option String` with sort key default `""`;
ISO-8601 strings compare chronologically as strings. -/

structure FormattedTweet where
  id : String
  username : String
  text : String
  created_at : Option String
deriving Repr, DecidableEq

/-- Sort key used by both `.sort(key=lambda x: x.get("created_at", ""))`
sites in `src/twitter/api.py`. -/
def createdKey (t : FormattedTweet) : String := t.created_at.getD ""

/-- Lexicographic code-point order on strings, the model of Python's `str`
comparison used by `list.sort(key=...)` (and semantically the same order as
Lean's `String` order, stated on the underlying character lists so that it
evaluates by kernel reduction). -/
def lexLe : List Char → List Char → Bool
  | [], _ => true
  | _ :: _, [] => false
  | a :: as, b :: bs => if a < b then true else if a = b then lexLe as bs else false

/-- The sort relation of the two `.sort` calls: compare `created_at`
(defaulted to `""`) lexicographically. -/
def tweetLe (a b : FormattedTweet) : Prop :=
  lexLe (createdKey a).data (createdKey b).data = true

instance : DecidableRel tweetLe := fun a b => by
  unfold tweetLe; infer_instance

/-- Python's negative-end slice `l[-m:]` for `m : Nat`: for `m = 0` the
slice is `l[0:]`, i.e. the whole list; otherwise the last `m` elements. -/
def pyTakeLast (l : List FormattedTweet) (m : Nat) : List FormattedTweet :=
  if m = 0 then l else l.drop (l.length - m)

/-- The sorted-and-filtered conversation before the cap: `formatted_tweets`
sorted by `created_at` (Python `list.sort` is a stable sort; modelled by
the stable `insertionSort`) with the triggering tweet removed. -/
def candidateHistory (formatted_tweets : List FormattedTweet)
    (tweet_id : String) : List FormattedTweet :=
  (formatted_tweets.insertionSort tweetLe).filter (fun t => t.id ≠ tweet_id)

/-- The tail of `fetch_conversation_history` (`src/twitter/api.py`): sort,
drop the triggering tweet, and if more than `max_tweets` remain return
`formatted_tweets[-max_tweets:]`. -/
def conversation_history_tail (formatted_tweets : List FormattedTweet)
    (tweet_id : String) (max_tweets : Nat) : List FormattedTweet :=
  let filtered := candidateHistory formatted_tweets tweet_id
  if filtered.length > max_tweets then pyTakeLast filtered max_tweets
  else filtered

/-! ## src/llm/api.py — question:// URL rewriting

`convert_question_urls` is `re.sub(pat, repl, text)` with
`pat = question://([0-9a-f]{8}-[0-9a-f]{4}-[0-9a-f]{4}-[0-9a-f]{4}-[0-9a-f]{12})`
and `repl = DELIB_ANALYTICS_URL + m.group(1)`.  `re.sub` scans left to
right; at each position it either matches (all pieces of this pattern have
fixed width, so the match at a position is unique), emits the replacement
and resumes after the match, or emits the character and advances by one. -/

/-- The character class `[0-9a-f]` of the UUID pattern (lowercase only). -/
def isHexLower (c : Char) : Bool := ('0' ≤ c && c ≤ '9') || ('a' ≤ c && c ≤ 'f')

/-- Consume exactly `n` `[0-9a-f]` characters (`[0-9a-f]{n}`). -/
def parseHexN : Nat → List Char → Option (List Char × List Char)
  | 0, cs => some ([], cs)
  | _ + 1, [] => none
  | n + 1, c :: cs =>
    if isHexLower c then (parseHexN n cs).map (fun p => (c :: p.1, p.2)) else none

/-- Consume a literal `-`. -/
def parseDash : List Char → Option (List Char)
  | '-' :: cs => some cs
  | _ => none

/-- The literal scheme part of the pattern. -/
def qScheme : List Char := "question://".data

/-- The capture group `([0-9a-f]{8}-[0-9a-f]{4}-[0-9a-f]{4}-[0-9a-f]{4}-[0-9a-f]{12})`:
returns the 36 matched characters and the rest of the input. -/
def parseUuid (cs : List Char) : Option (List Char × List Char) :=
  (parseHexN 8 cs).bind fun p1 =>
  (parseDash p1.2).bind fun r1 =>
  (parseHexN 4 r1).bind fun p2 =>
  (parseDash p2.2).bind fun r2 =>
  (parseHexN 4 r2).bind fun p3 =>
  (parseDash p3.2).bind fun r3 =>
  (parseHexN 4 r3).bind fun p4 =>
  (parseDash p4.2).bind fun r4 =>
  (parseHexN 12 r4).bind fun p5 =>
  some (p1.1 ++ '-' :: p2.1 ++ '-' :: p3.1 ++ '-' :: p4.1 ++ '-' :: p5.1, p5.2)

/-- Attempt the whole pattern at the head of `cs`: `question://` followed by
the UUID group.  On success returns the group and the unconsumed rest. -/
def tryMatch (cs : List Char) : Option (List Char × List Char) :=
  if cs.take 11 = qScheme then parseUuid (cs.drop 11) else none

/-- Whether `u` is exactly one UUID token body (what `\1` can be). -/
def isUuidChars (u : List Char) : Bool :=
  match parseUuid u with
  | some (_, []) => true
  | _ => false

/-- The `re.sub` scan, with explicit fuel for structural recursion; every
step consumes at least one character, so `fuel = length` is enough (see
`subScanF_fuel_irrel`). -/
def subScanF (url : List Char) : Nat → List Char → List Char
  | _, [] => []
  | 0, l => l
  | fuel + 1, c :: cs =>
    match tryMatch (c :: cs) with
    | some (u, rest) => url ++ u ++ subScanF url fuel rest
    | none => c :: subScanF url fuel cs

/-- `re.sub(pattern, lambda m: url + m.group(1), text)` on character lists. -/
def subScan (url cs : List Char) : List Char := subScanF url cs.length cs

/-- `convert_question_urls` from `src/llm/api.py`, parameterised by the
configured `DELIB_ANALYTICS_URL`. -/
def convert_question_urls (analytics_url : String) (text : String) : String :=
  String.mk (subScan analytics_url.data text.data)

/-- No pattern occurrence starts at any position of `s` (hypothesis form of
"text containing no such token"). -/
def NoTokenStart (s : String) : Prop :=
  ∀ i, i < s.data.length → tryMatch (s.data.drop i) = none

instance (s : String) : Decidable (NoTokenStart s) := by
  unfold NoTokenStart; exact Nat.decidableBallLT _ _

/-! ## src/llm/api.py — reply-strategy selection

External calls are oracle fields of `World`; each generated reply function
also returns the list of calls it performed, in order, so that "no
deliberation-backend interaction" is a statement about the trace.  The
project analysis report is carried as its JSON serialisation (the decision
logic never inspects it; `generate_reply_with_project_report` embeds
`json.dumps(report)` into the prompt). -/

/-- A stance annotation of a matched comment.  Fields are read with
`dict.get`, so each is optional; `confidence` is printed but never used by
the selection logic. -/
structure Stance where
  questionId : Option String
  stanceId : Option String
  confidence : Option Int
deriving DecidableEq, Repr

/-- A matched comment returned by the add-comment endpoint. -/
structure Comment where
  id : Option String
  content : Option String
  stances : List Stance
deriving DecidableEq, Repr

/-- The add-comment response; `comment_response.get("comments", [])`. -/
structure CommentResponse where
  comments : List Comment
deriving DecidableEq, Repr

/-- One entry of the conversation history handed to `generate_reply`
(as built by `fetch_conversation_history`, both keys always present). -/
structure HistoryEntry where
  username : String
  text : String
deriving DecidableEq, Repr

/-- Chat roles of the completion API. -/
inductive Role where
  | system
  | user
  | assistant
deriving DecidableEq, Repr

/-- One chat message sent to the completion API. -/
structure Message where
  role : Role
  content : String
deriving DecidableEq, Repr

/-- Configuration read from the environment in `src/config.py`. -/
structure Config where
  targetUsername : Option String
  analyticsUrl : String
deriving DecidableEq, Repr

/-- Events recorded when an external call is issued. -/
inductive ApiCall where
  | addComment
  | stanceReport (question_id : String)
  | projectReport
  | completion
deriving DecidableEq, Repr

/-- Deliberation-backend calls, as opposed to completion-API calls. -/
def isBackendCall : ApiCall → Bool
  | .completion => false
  | _ => true

/-- The external world: outcomes of each HTTP interaction.  `.error`
models a raised exception. -/
structure World where
  /-- POST `/projects/{id}/comments`, keyed by the submitted content. -/
  addComment : String → Except String CommentResponse
  /-- GET `/projects/{id}/questions/{qid}/stance-analysis`, keyed by the
  question id (the project id is fixed for the whole call). -/
  stanceReport : String → Except String String
  /-- GET `/projects/{id}/analysis` (serialised). -/
  projectReport : Except String String
  /-- `client.chat.completions.create(...)`, keyed by the message list. -/
  complete : List Message → Except String String

instance exceptDecEq {ε α : Type} [DecidableEq ε] [DecidableEq α] :
    DecidableEq (Except ε α)
  | .error e, .error f =>
    if h : e = f then isTrue (by rw [h])
    else isFalse (by intro hc; cases hc; exact h rfl)
  | .error _, .ok _ => isFalse (by intro hc; cases hc)
  | .ok _, .error _ => isFalse (by intro hc; cases hc)
  | .ok a, .ok b =>
    if h : a = b then isTrue (by rw [h])
    else isFalse (by intro hc; cases hc; exact h rfl)

/-- Python truthiness of an optional string (`if not project_id`,
`if has_stances and question_id`). -/
def pyTruthy (s : Option String) : Bool :=
  match s with
  | none => false
  | some t => t ≠ ""

/-- The comment content built by `add_comment_to_delib`: the rendered
conversation context (if any) followed by the new message. -/
def delibCommentContent (user_text : String) (history : List HistoryEntry) : String :=
  if history.isEmpty then user_text
  else
    "Previous conversation:\n" ++
      String.join (history.map fun t => t.username ++ ": " ++ t.text ++ "\n") ++
      "\n\nUser\x27s new message: " ++ user_text

/-- `add_comment_to_delib` from `src/llm/api.py`: submit the content, with
call trace. -/
def add_comment_to_delib (w : World) (user_text : String)
    (history : List HistoryEntry) : Except String CommentResponse × List ApiCall :=
  (w.addComment (delibCommentContent user_text history), [.addComment])

/-- `get_stance_analysis_report` from `src/llm/api.py`. -/
def get_stance_analysis_report (w : World) (question_id : String) :
    Except String String × List ApiCall :=
  (w.stanceReport question_id, [.stanceReport question_id])

/-- `get_project_analysis_report` from `src/llm/api.py`. -/
def get_project_analysis_report (w : World) : Except String String × List ApiCall :=
  (w.projectReport, [.projectReport])

/-- Conversation history rendered as chat turns: the bot's own tweets
(username equal to `TARGET_USERNAME`) become assistant turns, all others
user turns. -/
def historyMessages (target : Option String) (history : List HistoryEntry) : List Message :=
  history.map fun t =>
    { role := if some t.username ≠ target then Role.user else Role.assistant
      content := t.text }

/-- System prompt of `generate_reply_with_stance_analysis` before the
stance report is appended (prose of the source prompt; original literal
indentation not reproduced). -/
def STANCE_PROMPT_INTRO : String :=
  "You are an engaging Twitter bot that facilitates thoughtful discussions by introducing alternative viewpoints and asking questions.\nYour goal is to respond to the user\x27s message by acknowledging their point, introducing specific alternative viewpoints from other users, and then posing thought-provoking questions that invite further discussion.\nKeep your responses concise (under 280 characters) and directly related to the user\x27s comment.\nIMPORTANT: Do not use Markdown link syntax (e.g., [text](url)) in your responses. Use plain text URLs instead.\nBelow is an analysis of different stances on the topic the user is discussing:\n"

/-- Closing part of the stance-analysis system prompt. -/
def STANCE_PROMPT_OUTRO : String :=
  "\nBased on this analysis:\n1. Briefly acknowledge the specific point the user made\n2. Share a concrete alternative viewpoint from the stance report, using phrases like \"Others have pointed out that...\" or \"Some users with different views argue that...\"\n3. Follow up with a thought-provoking question about this alternative perspective, such as \"What do you think about this perspective?\" or \"How would you respond to this argument?\"\n4. Stay focused on the exact topic the user mentioned - do not introduce tangential points\n5. Keep your response under 280 characters"

/-- System prompt of `generate_reply_with_project_report` before the
serialised report is appended. -/
def PROJECT_PROMPT_INTRO : String :=
  "You are an engaging Twitter bot that facilitates thoughtful discussions by introducing alternative viewpoints and asking questions.\nYour goal is to respond to the user\x27s specific message by acknowledging their point, sharing specific perspectives from other users, and then posing thought-provoking questions that invite further discussion.\nKeep your responses concise (under 280 characters) and highly relevant to what they actually said.\nIMPORTANT: Do not use Markdown link syntax (e.g., [text](url)) in your responses. Use plain text URLs instead.\nBelow is an overview of the current discussion topics and perspectives:\n"

/-- Closing part of the project-report system prompt. -/
def PROJECT_PROMPT_OUTRO : String :=
  "\nBased on this overview:\n1. Briefly acknowledge the specific point or question in the user\x27s message\n2. Share a concrete example of an alternative perspective from the project report, using phrases like \"Several users have argued that...\" or \"One perspective from the discussion is that...\"\n3. Follow up with a thought-provoking question about this perspective, such as \"What\x27s your take on this view?\" or \"How would you respond to this argument?\"\n4. Try to stay focused on the topic the user brought up - do not introduce unrelated topics\n5. Keep your response under 280 characters"

/-- System prompt of `generate_continuation_message` (the message count is
interpolated by the source f-string). -/
def continuationSystemPrompt (n : Nat) : String :=
  "You are a helpful Twitter bot. The conversation has become quite long with " ++
    toString n ++
    " messages.\nGenerate a short, friendly message (under 280 characters) suggesting to continue the discussion at a URL.\nThe message should be relevant to the specific topics and tone of the conversation.\nIMPORTANT: Do not use Markdown link syntax (e.g., [text](url)) in your responses. Use plain text URLs instead.\nUse phrases like \"Let\x27s continue this discussion about [TOPIC] at [URL]\"\nor \"This conversation about [TOPIC] is getting interesting! Let\x27s move to [URL] to discuss further.\"\nReplace [TOPIC] with the main topic of the conversation, and [URL] with https://idobata.io/"

/-- Final user turn of the continuation prompt. -/
def CONTINUATION_FINAL_USER : String :=
  "Based on our conversation, suggest continuing this discussion at https://idobata.io/"

/-- The message list built by `generate_reply_with_stance_analysis`.
(`system_prompt += stance_report` is guarded by `if stance_report:` in the
source; appending the empty string is the same.) -/
def stanceMessages (cfg : Config) (user_text stance_report : String)
    (history : List HistoryEntry) : List Message :=
  { role := Role.system
    content := STANCE_PROMPT_INTRO ++ stance_report ++ STANCE_PROMPT_OUTRO } ::
    historyMessages cfg.targetUsername history ++
    [{ role := Role.user, content := user_text }]

/-- The message list built by `generate_reply_with_project_report`. -/
def projectMessages (cfg : Config) (user_text project_report : String)
    (history : List HistoryEntry) : List Message :=
  { role := Role.system
    content := PROJECT_PROMPT_INTRO ++ project_report ++ PROJECT_PROMPT_OUTRO } ::
    historyMessages cfg.targetUsername history ++
    [{ role := Role.user, content := user_text }]

/-- The message list built by `generate_continuation_message`. -/
def continuationMessages (cfg : Config) (history : List HistoryEntry) : List Message :=
  { role := Role.system, content := continuationSystemPrompt history.length } ::
    historyMessages cfg.targetUsername history ++
    [{ role := Role.user, content := CONTINUATION_FINAL_USER }]

/-- `generate_reply_with_stance_analysis` from `src/llm/api.py`: call the
completion API on `stanceMessages` and rewrite `question://` URLs. -/
def generate_reply_with_stance_analysis (cfg : Config) (w : World)
    (user_text stance_report : String) (history : List HistoryEntry) :
    Except String String × List ApiCall :=
  match w.complete (stanceMessages cfg user_text stance_report history) with
  | .ok reply => (.ok (convert_question_urls cfg.analyticsUrl reply), [.completion])
  | .error e => (.error e, [.completion])

/-- `generate_reply_with_project_report` from `src/llm/api.py`. -/
def generate_reply_with_project_report (cfg : Config) (w : World)
    (user_text project_report : String) (history : List HistoryEntry) :
    Except String String × List ApiCall :=
  match w.complete (projectMessages cfg user_text project_report history) with
  | .ok reply => (.ok (convert_question_urls cfg.analyticsUrl reply), [.completion])
  | .error e => (.error e, [.completion])

/-- `generate_continuation_message` from `src/llm/api.py`. -/
def generate_continuation_message (cfg : Config) (w : World)
    (history : List HistoryEntry) : Except String String × List ApiCall :=
  match w.complete (continuationMessages cfg history) with
  | .ok m => (.ok (convert_question_urls cfg.analyticsUrl m), [.completion])
  | .error e => (.error e, [.completion])

/-- The per-comment filter `[s for s in stances if s.get("stanceId") != "neutral"]`.
A missing `stanceId` (`none`) also differs from `"neutral"`. -/
def validStances (c : Comment) : List Stance :=
  c.stances.filter fun s => s.stanceId ≠ some "neutral"

/-- The selection loop of `generate_reply`: scan comments in order; the
first comment with a non-neutral stance sets `has_stances := true` and
`question_id` to its first valid stance's `questionId`, then breaks. -/
def selectQuestion : List Comment → Bool × Option String
  | [] => (false, none)
  | c :: rest =>
    match validStances c with
    | [] => selectQuestion rest
    | s :: _ => (true, s.questionId)

/-- Case 2 of `generate_reply` (project-grounded fallback): fetch the
project analysis report, then generate from it. -/
def generate_reply_case2 (cfg : Config) (w : World) (user_text : String)
    (history : List HistoryEntry) : Except String String × List ApiCall :=
  match get_project_analysis_report w with
  | (.error e, t) => (.error e, t)
  | (.ok rep, t) =>
    let (r, t2) := generate_reply_with_project_report cfg w user_text rep history
    (r, t ++ t2)

/-- Case 1 of `generate_reply` (stance-grounded): fetch the selected
question's stance-analysis report, then generate from it. -/
def generate_reply_case1 (cfg : Config) (w : World) (user_text : String)
    (history : List HistoryEntry) (question_id : String) :
    Except String String × List ApiCall :=
  match get_stance_analysis_report w question_id with
  | (.error e, t) => (.error e, t)
  | (.ok rep, t) =>
    let (r, t2) := generate_reply_with_stance_analysis cfg w user_text rep history
    (r, t ++ t2)

/-- The body of the `try:` block of `generate_reply`: submit the comment,
select the strategy (`if has_stances and question_id:`), and run it.
An `.error` result is an exception escaping the block. -/
def generate_reply_body (cfg : Config) (w : World) (user_text : String)
    (history : List HistoryEntry) : Except String String × List ApiCall :=
  match add_comment_to_delib w user_text history with
  | (.error e, t) => (.error e, t)
  | (.ok resp, t) =>
    match selectQuestion resp.comments with
    | (true, some q) =>
      if q = "" then
        -- `question_id` is falsy: Case 2
        let (r, t2) := generate_reply_case2 cfg w user_text history
        (r, t ++ t2)
      else
        let (r, t2) := generate_reply_case1 cfg w user_text history q
        (r, t ++ t2)
    | _ =>
      let (r, t2) := generate_reply_case2 cfg w user_text history
      (r, t ++ t2)

/-- `generate_reply` from `src/llm/api.py`.  The source guard
`if conversation_history and len(conversation_history) >= 5` is equivalent
to `5 ≤ history.length` (a list of length ≥ 5 is truthy).  The `try`
wraps everything after the `project_id` check; `except` logs and returns
`None`.  The continuation branch sits before the `try`. -/
def generate_reply (cfg : Config) (w : World) (user_text : String)
    (history : List HistoryEntry) (project_id : Option String) :
    Except String (Option String) × List ApiCall :=
  if 5 ≤ history.length then
    let (r, t) := generate_continuation_message cfg w history
    (r.map some, t)
  else if !pyTruthy project_id then
    (.ok none, [])
  else
    match generate_reply_body cfg w user_text history with
    | (.ok reply, t) => (.ok (some reply), t)
    | (.error _, t) => (.ok none, t)

/-- The `except` clause of `generate_reply`'s `try` block, as a function of
the block's outcome: a raised exception is logged and becomes `None`. -/
def pyCatch : Except String String → Except String (Option String)
  | .ok s => .ok (some s)
  | .error _ => .ok none

/-! ## Concrete instances used by witnesses and counterexamples -/

/-- A concrete configuration. -/
def cfg0 : Config :=
  { targetUsername := some "bot"
    analyticsUrl := "https://delib.example/a?question=" }

/-- A world whose calls all succeed and whose add-comment response has no
comments. -/
def emptyWorld : World :=
  { addComment := fun _ => .ok ⟨[]⟩
    stanceReport := fun _ => .ok "stance-report"
    projectReport := .ok "project-report"
    complete := fun _ => .ok "generated reply" }

/-- An add-comment response whose only stance is non-neutral with a
question id. -/
def stanceResp : CommentResponse :=
  ⟨[⟨some "c1", some "body", [⟨some "q1", some "agree", some 80⟩]⟩]⟩

/-- A world returning `stanceResp`. -/
def stanceWorld : World :=
  { addComment := fun _ => .ok stanceResp
    stanceReport := fun _ => .ok "stance-report"
    projectReport := .ok "project-report"
    complete := fun _ => .ok "generated reply" }

/-- An add-comment response whose only stance is non-neutral but carries an
empty `questionId`. -/
def emptyQResp : CommentResponse :=
  ⟨[⟨some "c1", none, [⟨some "", some "agree", some 90⟩]⟩]⟩

/-- A world returning `emptyQResp`. -/
def emptyQWorld : World :=
  { addComment := fun _ => .ok emptyQResp
    stanceReport := fun _ => .ok "stance-report"
    projectReport := .ok "project-report"
    complete := fun _ => .ok "generated reply" }

/-- A world whose external calls all raise. -/
def failWorld : World :=
  { addComment := fun _ => .error "boom"
    stanceReport := fun _ => .error "boom"
    projectReport := .error "boom"
    complete := fun _ => .error "boom" }

/-- A five-message conversation history. -/
def hist5 : List HistoryEntry :=
  [⟨"u1", "m1"⟩, ⟨"u2", "m2"⟩, ⟨"u1", "m3"⟩, ⟨"u2", "m4"⟩, ⟨"u1", "m5"⟩]

/-- A 300-character reply, used to exercise truncation. -/
def longReply : String := String.mk (List.replicate 300 'a')

/-- Its truncation: the first 277 characters plus an ellipsis. -/
def longReplyCut : String := String.mk (List.replicate 277 'a') ++ "..."

/-! ## Helper lemmas -/

theorem takeWhile_append_stop {α : Type} {p : α → Bool} {c : α} (l r : List α)
    (hl : ∀ x ∈ l, p x = true) (hc : p c = false) :
    (l ++ c :: r).takeWhile p = l := by
  induction l with
  | nil => simp [List.takeWhile_cons, hc]
  | cons x xs ih =>
    have hx : p x = true := hl x (by simp)
    simp only [List.cons_append, List.takeWhile_cons, hx, if_true]
    simp [ih fun y hy => hl y (by simp [hy])]

theorem dropWhile_append_stop {α : Type} {p : α → Bool} {c : α} (l r : List α)
    (hl : ∀ x ∈ l, p x = true) (hc : p c = false) :
    (l ++ c :: r).dropWhile p = c :: r := by
  induction l with
  | nil => simp [List.dropWhile_cons, hc]
  | cons x xs ih =>
    have hx : p x = true := hl x (by simp)
    simp only [List.cons_append, List.dropWhile_cons, hx, if_true]
    exact ih fun y hy => hl y (by simp [hy])

theorem takeWhile_eq_self_of_all {α : Type} {p : α → Bool} (l : List α)
    (hl : ∀ x ∈ l, p x = true) : l.takeWhile p = l := by
  induction l with
  | nil => rfl
  | cons x xs ih =>
    simp [List.takeWhile_cons, hl x (by simp), ih fun y hy => hl y (by simp [hy])]

theorem dropWhile_eq_nil_of_all {α : Type} {p : α → Bool} (l : List α)
    (hl : ∀ x ∈ l, p x = true) : l.dropWhile p = [] := by
  induction l with
  | nil => rfl
  | cons x xs ih =>
    simp [List.dropWhile_cons, hl x (by simp), ih fun y hy => hl y (by simp [hy])]

theorem lexLe_cons (a b : Char) (as bs : List Char) :
    lexLe (a :: as) (b :: bs) = true ↔ a < b ∨ (a = b ∧ lexLe as bs = true) := by
  show (if a < b then true else if a = b then lexLe as bs else false) = true ↔ _
  split_ifs with h h' <;> simp_all

theorem lexLe_total (as bs : List Char) : lexLe as bs = true ∨ lexLe bs as = true := by
  induction as generalizing bs with
  | nil => exact Or.inl rfl
  | cons a as ih =>
    cases bs with
    | nil => exact Or.inr rfl
    | cons b bs =>
      rcases lt_trichotomy a b with h | h | h
      · exact Or.inl ((lexLe_cons a b as bs).2 (Or.inl h))
      · subst h
        rcases ih bs with h' | h'
        · exact Or.inl ((lexLe_cons a a as bs).2 (Or.inr ⟨rfl, h'⟩))
        · exact Or.inr ((lexLe_cons a a bs as).2 (Or.inr ⟨rfl, h'⟩))
      · exact Or.inr ((lexLe_cons b a bs as).2 (Or.inl h))

theorem lexLe_trans (as bs cs : List Char) (h1 : lexLe as bs = true)
    (h2 : lexLe bs cs = true) : lexLe as cs = true := by
  induction as generalizing bs cs with
  | nil => rfl
  | cons a as ih =>
    cases bs with
    | nil => simp [lexLe] at h1
    | cons b bs =>
      cases cs with
      | nil => simp [lexLe] at h2
      | cons c cs =>
        rcases (lexLe_cons a b as bs).1 h1 with hab | ⟨hab, htl⟩ <;>
          rcases (lexLe_cons b c bs cs).1 h2 with hbc | ⟨hbc, htl'⟩
        · exact (lexLe_cons a c as cs).2 (Or.inl (lt_trans hab hbc))
        · exact (lexLe_cons a c as cs).2 (Or.inl (hbc ▸ hab))
        · exact (lexLe_cons a c as cs).2 (Or.inl (hab ▸ hbc))
        · exact (lexLe_cons a c as cs).2 (Or.inr ⟨hab.trans hbc, ih bs cs htl htl'⟩)

theorem candidateHistory_sorted (tweets : List FormattedTweet) (tweet_id : String) :
    List.Sorted tweetLe (candidateHistory tweets tweet_id) :=
  (@List.sorted_insertionSort FormattedTweet tweetLe _
    ⟨fun a b => lexLe_total (createdKey a).data (createdKey b).data⟩
    ⟨fun _ _ _ h1 h2 => lexLe_trans _ _ _ h1 h2⟩ tweets).filter _

theorem candidateHistory_not_trigger (tweets : List FormattedTweet)
    (tweet_id : String) :
    ∀ t ∈ candidateHistory tweets tweet_id, t.id ≠ tweet_id := by
  intro t ht
  have := List.of_mem_filter ht
  simpa using this

theorem parseHexN_sound (n : Nat) (cs g r : List Char)
    (h : parseHexN n cs = some (g, r)) :
    cs = g ++ r ∧ g.length = n ∧ ∀ x ∈ g, isHexLower x = true := by
  induction n generalizing cs g r with
  | zero =>
    simp only [parseHexN, Option.some.injEq, Prod.mk.injEq] at h
    obtain ⟨hg, hr⟩ := h
    subst hg; subst hr; simp
  | succ n ih =>
    cases cs with
    | nil => simp [parseHexN] at h
    | cons c cs =>
      simp only [parseHexN] at h
      split at h
      · next hc =>
        rw [Option.map_eq_some'] at h
        obtain ⟨⟨g', r'⟩, hp, heq⟩ := h
        obtain ⟨hcs, hlen, hhex⟩ := ih cs g' r' hp
        cases heq
        refine ⟨by rw [hcs]; rfl, by simp [hlen], ?_⟩
        intro x hx
        rcases List.mem_cons.1 hx with hx | hx
        · subst hx; exact hc
        · exact hhex x hx
      · exact absurd h (by simp)

theorem parseHexN_exact (g rest : List Char)
    (hg : ∀ x ∈ g, isHexLower x = true) :
    parseHexN g.length (g ++ rest) = some (g, rest) := by
  induction g with
  | nil => simp [parseHexN]
  | cons c g ih =>
    have hc : isHexLower c = true := hg c (by simp)
    have ih' := ih fun x hx => hg x (by simp [hx])
    show parseHexN (g.length + 1) (c :: (g ++ rest)) = some (c :: g, rest)
    rw [show parseHexN (g.length + 1) (c :: (g ++ rest)) =
      if isHexLower c then
        (parseHexN g.length (g ++ rest)).map (fun p => (c :: p.1, p.2))
      else none from rfl]
    rw [if_pos hc, ih']
    rfl

theorem parseHexN_append (n : Nat) (cs g r t : List Char)
    (h : parseHexN n cs = some (g, r)) :
    parseHexN n (cs ++ t) = some (g, r ++ t) := by
  obtain ⟨hcs, hn, hhex⟩ := parseHexN_sound n cs g r h
  subst hcs; subst hn
  rw [List.append_assoc]
  exact parseHexN_exact g (r ++ t) hhex

theorem parseDash_sound (cs r : List Char) (h : parseDash cs = some r) :
    cs = '-' :: r := by
  cases cs with
  | nil => exact absurd h (by simp [parseDash])
  | cons c cs =>
    by_cases hc : c = '-'
    · subst hc
      simp only [parseDash, Option.some.injEq] at h
      rw [h]
    · have hnone : parseDash (c :: cs) = none := by
        unfold parseDash
        split
        · next heq =>
          injection heq with h1 _
          exact absurd h1 hc
        · rfl
      rw [hnone] at h
      cases h

theorem parseDash_append (cs r t : List Char) (h : parseDash cs = some r) :
    parseDash (cs ++ t) = some (r ++ t) := by
  rw [parseDash_sound cs r h]
  rfl

theorem parseUuid_sound (cs u r : List Char) (h : parseUuid cs = some (u, r)) :
    cs = u ++ r ∧ u.length = 36 := by
  simp only [parseUuid, Option.bind_eq_some] at h
  obtain ⟨p1, h1, q1, hd1, p2, h2, q2, hd2, p3, h3, q3, hd3, p4, h4, q4, hd4,
    p5, h5, hfin⟩ := h
  simp only [Option.some.injEq, Prod.mk.injEq] at hfin
  obtain ⟨hu, hr⟩ := hfin
  obtain ⟨e1, l1, _⟩ := parseHexN_sound _ _ _ _ h1
  have e1d := parseDash_sound _ _ hd1
  obtain ⟨e2, l2, _⟩ := parseHexN_sound _ _ _ _ h2
  have e2d := parseDash_sound _ _ hd2
  obtain ⟨e3, l3, _⟩ := parseHexN_sound _ _ _ _ h3
  have e3d := parseDash_sound _ _ hd3
  obtain ⟨e4, l4, _⟩ := parseHexN_sound _ _ _ _ h4
  have e4d := parseDash_sound _ _ hd4
  obtain ⟨e5, l5, _⟩ := parseHexN_sound _ _ _ _ h5
  subst hu; subst hr
  constructor
  · rw [e1, e1d, e2, e2d, e3, e3d, e4, e4d, e5]
    simp [List.append_assoc]
  · simp [List.length_append, l1, l2, l3, l4, l5]

theorem parseUuid_append (cs u r t : List Char) (h : parseUuid cs = some (u, r)) :
    parseUuid (cs ++ t) = some (u, r ++ t) := by
  simp only [parseUuid, Option.bind_eq_some] at h ⊢
  obtain ⟨p1, h1, q1, hd1, p2, h2, q2, hd2, p3, h3, q3, hd3, p4, h4, q4, hd4,
    p5, h5, hfin⟩ := h
  simp only [Option.some.injEq, Prod.mk.injEq] at hfin
  obtain ⟨hu, hr⟩ := hfin
  refine ⟨(p1.1, p1.2 ++ t), parseHexN_append _ _ _ _ _ h1, q1 ++ t,
    parseDash_append _ _ _ hd1, (p2.1, p2.2 ++ t), parseHexN_append _ _ _ _ _ h2,
    q2 ++ t, parseDash_append _ _ _ hd2, (p3.1, p3.2 ++ t),
    parseHexN_append _ _ _ _ _ h3, q3 ++ t, parseDash_append _ _ _ hd3,
    (p4.1, p4.2 ++ t), parseHexN_append _ _ _ _ _ h4, q4 ++ t,
    parseDash_append _ _ _ hd4, (p5.1, p5.2 ++ t),
    parseHexN_append _ _ _ _ _ h5, ?_⟩
  simp only [Option.some.injEq, Prod.mk.injEq]
  exact ⟨hu, by rw [← hr]⟩

theorem isUuidChars_parse (u : List Char) (h : isUuidChars u = true) :
    parseUuid u = some (u, []) := by
  unfold isUuidChars at h
  rcases heq : parseUuid u with _ | ⟨g, r⟩
  · rw [heq] at h; simp at h
  · rw [heq] at h
    cases r with
    | nil =>
      obtain ⟨hdec, _⟩ := parseUuid_sound _ _ _ heq
      simp only [List.append_nil] at hdec
      rw [hdec]
    | cons x xs => simp at h

theorem tryMatch_token (u post : List Char) (hu : isUuidChars u = true) :
    tryMatch (qScheme ++ (u ++ post)) = some (u, post) := by
  unfold tryMatch
  rw [show (11 : Nat) = qScheme.length from rfl, List.take_left, List.drop_left]
  simp only [if_true]
  have := parseUuid_append u u [] post (isUuidChars_parse u hu)
  simpa using this

theorem tryMatch_rest_lt (cs u rest : List Char)
    (h : tryMatch cs = some (u, rest)) : rest.length < cs.length := by
  unfold tryMatch at h
  split at h
  · next htake =>
    obtain ⟨hdec, hlen⟩ := parseUuid_sound _ _ _ h
    have h11 : 11 ≤ cs.length := by
      have ht : (cs.take 11).length = 11 := by rw [htake]; rfl
      simp only [List.length_take] at ht
      omega
    have hdl : (cs.drop 11).length = cs.length - 11 := List.length_drop 11 cs
    rw [hdec] at hdl
    simp only [List.length_append, hlen] at hdl
    omega
  · exact absurd h (by simp)

theorem subScanF_fuel_irrel (url : List Char) (f1 f2 : Nat) (cs : List Char)
    (h1 : cs.length ≤ f1) (h2 : cs.length ≤ f2) :
    subScanF url f1 cs = subScanF url f2 cs := by
  induction f1 generalizing f2 cs with
  | zero =>
    have : cs = [] := List.eq_nil_of_length_eq_zero (by omega)
    subst this
    cases f2 <;> rfl
  | succ f1 ih =>
    cases cs with
    | nil => cases f2 <;> rfl
    | cons c cs =>
      cases f2 with
      | zero => simp at h2
      | succ f2 =>
        simp only [List.length_cons] at h1 h2
        rcases htm : tryMatch (c :: cs) with _ | ⟨u, rest⟩
        · simp only [subScanF, htm]
          rw [ih f2 cs (by omega) (by omega)]
        · have hlt := tryMatch_rest_lt _ _ _ htm
          simp only [List.length_cons] at hlt
          simp only [subScanF, htm]
          rw [ih f2 rest (by omega) (by omega)]

theorem subScan_cons_none (url : List Char) (c : Char) (cs : List Char)
    (h : tryMatch (c :: cs) = none) :
    subScan url (c :: cs) = c :: subScan url cs := by
  unfold subScan
  simp only [List.length_cons, subScanF, h]

theorem subScan_match (url l u rest : List Char)
    (h : tryMatch l = some (u, rest)) :
    subScan url l = url ++ u ++ subScan url rest := by
  cases l with
  | nil => simp [tryMatch, qScheme] at h
  | cons c cs =>
    have hlt := tryMatch_rest_lt _ _ _ h
    unfold subScan
    simp only [List.length_cons, subScanF, h]
    rw [subScanF_fuel_irrel url cs.length rest.length rest
      (by simpa using Nat.lt_succ_iff.1 (by simpa using hlt)) le_rfl]

theorem subScan_id (url cs : List Char)
    (h : ∀ i, i < cs.length → tryMatch (cs.drop i) = none) :
    subScan url cs = cs := by
  induction cs with
  | nil => rfl
  | cons c cs ih =>
    have h0 : tryMatch (c :: cs) = none := h 0 (by simp)
    rw [subScan_cons_none url c cs h0, ih]
    intro i hi
    have := h (i + 1) (by simp; omega)
    simpa using this

theorem subScan_token (url pre u post : List Char) (hu : isUuidChars u = true)
    (hpre : ∀ i, i < pre.length →
      tryMatch ((pre ++ (qScheme ++ (u ++ post))).drop i) = none) :
    subScan url (pre ++ (qScheme ++ (u ++ post))) =
      pre ++ url ++ u ++ subScan url post := by
  induction pre with
  | nil =>
    simp only [List.nil_append]
    rw [subScan_match url _ u post (tryMatch_token u post hu)]
  | cons c pre ih =>
    have h0 : tryMatch (c :: (pre ++ (qScheme ++ (u ++ post)))) = none := by
      have := hpre 0 (by simp)
      simpa using this
    rw [List.cons_append, subScan_cons_none _ _ _ h0, ih]
    · simp
    · intro i hi
      have := hpre (i + 1) (by simp; omega)
      simpa using this

/-- The comment-then-stance scan of `selectQuestion` agrees with taking the
first non-neutral stance of the flattened stance sequence. -/
theorem selectQuestion_eq_flat (comments : List Comment) :
    selectQuestion comments =
      match (comments.flatMap Comment.stances).filter
          (fun s => s.stanceId ≠ some "neutral") with
      | [] => (false, none)
      | s :: _ => (true, s.questionId) := by
  induction comments with
  | nil => rfl
  | cons c rest ih =>
    rcases hv : validStances c with _ | ⟨s, tl⟩
    · have hflt : c.stances.filter (fun s => s.stanceId ≠ some "neutral") = [] := hv
      simp only [selectQuestion, hv, List.flatMap_cons, List.filter_append, hflt,
        List.nil_append]
      exact ih
    · have hflt : c.stances.filter (fun s => s.stanceId ≠ some "neutral") = s :: tl := hv
      simp only [selectQuestion, hv, List.flatMap_cons, List.filter_append, hflt,
        List.cons_append]

/-- The trace of the stance-grounded branch: it always fetches the selected
question's stance report, then (unless that raised) calls the completion
API — never the project report. -/
theorem generate_reply_case1_trace (cfg : Config) (w : World) (u : String)
    (hist : List HistoryEntry) (q : String) :
    (generate_reply_case1 cfg w u hist q).2 = [ApiCall.stanceReport q] ∨
    (generate_reply_case1 cfg w u hist q).2 =
      [ApiCall.stanceReport q, ApiCall.completion] := by
  rcases h1 : w.stanceReport q with e | rep
  · left
    simp [generate_reply_case1, get_stance_analysis_report, h1]
  · rcases h2 : w.complete (stanceMessages cfg u rep hist) with e | out <;>
      right <;>
      simp [generate_reply_case1, get_stance_analysis_report,
        generate_reply_with_stance_analysis, h1, h2]

/-- The trace of the project-grounded branch. -/
theorem generate_reply_case2_trace (cfg : Config) (w : World) (u : String)
    (hist : List HistoryEntry) :
    (generate_reply_case2 cfg w u hist).2 = [ApiCall.projectReport] ∨
    (generate_reply_case2 cfg w u hist).2 =
      [ApiCall.projectReport, ApiCall.completion] := by
  rcases h1 : w.projectReport with e | rep
  · left
    simp [generate_reply_case2, get_project_analysis_report, h1]
  · rcases h2 : w.complete (projectMessages cfg u rep hist) with e | out <;>
      right <;>
      simp [generate_reply_case2, get_project_analysis_report,
        generate_reply_with_project_report, h1, h2]

/-- Below the continuation threshold with a truthy project id,
`generate_reply` is the `try` body with exceptions caught. -/
theorem generate_reply_below (cfg : Config) (w : World) (u : String)
    (hist : List HistoryEntry) (pid : Option String)
    (hlen : hist.length < 5) (hpid : pyTruthy pid = true) :
    generate_reply cfg w u hist pid =
      (pyCatch (generate_reply_body cfg w u hist).1,
        (generate_reply_body cfg w u hist).2) := by
  have hne5 : ¬ 5 ≤ hist.length := by omega
  unfold generate_reply
  rw [if_neg hne5, hpid]
  rcases hb : generate_reply_body cfg w u hist with ⟨r, t⟩
  rcases r with e | reply <;> simp [pyCatch]

/-- Reduction of the `try` body once the add-comment response is known. -/
theorem generate_reply_body_ok (cfg : Config) (w : World) (u : String)
    (hist : List HistoryEntry) (resp : CommentResponse)
    (hresp : w.addComment (delibCommentContent u hist) = .ok resp) :
    generate_reply_body cfg w u hist =
      match selectQuestion resp.comments with
      | (true, some q) =>
        if q = "" then
          ((generate_reply_case2 cfg w u hist).1,
            ApiCall.addComment :: (generate_reply_case2 cfg w u hist).2)
        else
          ((generate_reply_case1 cfg w u hist q).1,
            ApiCall.addComment :: (generate_reply_case1 cfg w u hist q).2)
      | _ =>
        ((generate_reply_case2 cfg w u hist).1,
          ApiCall.addComment :: (generate_reply_case2 cfg w u hist).2) := by
  unfold generate_reply_body add_comment_to_delib
  rw [hresp]
  dsimp only
  rcases hsel : selectQuestion resp.comments with ⟨hs, oq⟩
  cases hs <;> rcases oq with _ | q
  · rfl
  · rfl
  · rfl
  · by_cases hq : q = "" <;> simp [hq]

/-! ## Claims -/

/-- **C8.** Applied to a string longer than 280 characters,
`truncate_reply_if_needed` yields a string of exactly 280 characters whose
last 3 characters are `"..."` and whose first 277 characters are the
input's first 277 characters; applied to a string of at most 280
characters it returns the input unchanged. -/
theorem truncate_reply_if_needed_spec (s t : String)
    (ht : truncate_reply_if_needed (some s) = some t) :
    (280 < s.length →
      t.length = 280 ∧ t.data.drop 277 = "...".data ∧
        t.data.take 277 = s.data.take 277) ∧
    (s.length ≤ 280 → t = s) := by
  unfold truncate_reply_if_needed TWITTER_CHAR_LIMIT at ht
  by_cases h : s.length ≤ 280
  · simp only [h, if_true, Option.some.injEq] at ht
    exact ⟨fun hgt => absurd h (by omega), fun _ => ht.symm⟩
  · simp only [h, if_false, Option.some.injEq] at ht
    refine ⟨fun hgt => ?_, fun hle => absurd hle h⟩
    have hlen : s.data.length = s.length := rfl
    have h277 : (s.data.take 277).length = 277 := by
      rw [List.length_take]; omega
    subst ht
    refine ⟨?_, ?_, ?_⟩
    · show (String.mk (s.data.take (280 - 3)) ++ "...").data.length = 280
      rw [String.data_append]
      simp only [List.length_append, show (280 : Nat) - 3 = 277 from rfl, h277]
      rfl
    · show ((String.mk (s.data.take (280 - 3)) ++ "...").data).drop 277 = "...".data
      rw [String.data_append]
      have : (String.mk (s.data.take (280 - 3))).data = s.data.take 277 := rfl
      rw [this, List.drop_left' h277]
    · show ((String.mk (s.data.take (280 - 3)) ++ "...").data).take 277 = s.data.take 277
      rw [String.data_append]
      have : (String.mk (s.data.take (280 - 3))).data = s.data.take 277 := rfl
      rw [this, List.take_left' h277]

/-- Witness for C8 at a concrete 300-character input. -/
theorem truncate_reply_if_needed_spec_witness :
    longReplyCut.length = 280 ∧ longReplyCut.data.drop 277 = "...".data ∧
      longReplyCut.data.take 277 = longReply.data.take 277 :=
  (truncate_reply_if_needed_spec longReply longReplyCut (by decide)).1 (by decide)

/-- **C10.** `remove_mention_prefix` strips at most one leading mention per
call, and only when it is `@` + word characters + at least one whitespace
character: with stacked mentions `"@a …@b …rest"` only the first is
removed (all its trailing whitespace with it), a bare mention with no
trailing whitespace is returned unchanged, and `none` maps to `none`. -/
theorem remove_mention_prefix_spec (a b w r : List Char)
    (ha : a ≠ []) (ha' : ∀ x ∈ a, isWordChar x = true)
    (hw : w ≠ []) (hw' : ∀ x ∈ w, isWordChar x = true) :
    remove_mention_prefix none = none ∧
    remove_mention_prefix (some (String.mk ('@' :: w))) =
      some (String.mk ('@' :: w)) ∧
    remove_mention_prefix
        (some (String.mk ('@' :: (a ++ ' ' :: '@' :: (b ++ ' ' :: r))))) =
      some (String.mk ('@' :: (b ++ ' ' :: r))) := by
  refine ⟨rfl, ?_, ?_⟩
  · show (match ((String.mk ('@' :: w)).data.dropWhile isPySpace) with
      | '@' :: r2 =>
        if (r2.takeWhile isWordChar).isEmpty then some (String.mk ('@' :: w))
        else if (((r2.dropWhile isWordChar)).takeWhile isPySpace).isEmpty
          then some (String.mk ('@' :: w))
          else some (String.mk ((r2.dropWhile isWordChar).dropWhile isPySpace))
      | _ => some (String.mk ('@' :: w))) = some (String.mk ('@' :: w))
    have hdrop : (String.mk ('@' :: w)).data.dropWhile isPySpace = '@' :: w := by
      simp [List.dropWhile_cons, show isPySpace '@' = false from by decide]
    rw [hdrop]
    have h1 : w.takeWhile isWordChar = w := takeWhile_eq_self_of_all w hw'
    have h2 : w.dropWhile isWordChar = [] := dropWhile_eq_nil_of_all w hw'
    simp only [h1, h2]
    cases w with
    | nil => exact absurd rfl hw
    | cons x xs => simp [List.isEmpty]
  · show (match ((String.mk ('@' :: (a ++ ' ' :: '@' :: (b ++ ' ' :: r)))).data.dropWhile isPySpace) with
      | '@' :: r2 =>
        if (r2.takeWhile isWordChar).isEmpty
          then some (String.mk ('@' :: (a ++ ' ' :: '@' :: (b ++ ' ' :: r))))
        else if (((r2.dropWhile isWordChar)).takeWhile isPySpace).isEmpty
          then some (String.mk ('@' :: (a ++ ' ' :: '@' :: (b ++ ' ' :: r))))
          else some (String.mk ((r2.dropWhile isWordChar).dropWhile isPySpace))
      | _ => some (String.mk ('@' :: (a ++ ' ' :: '@' :: (b ++ ' ' :: r))))) =
      some (String.mk ('@' :: (b ++ ' ' :: r)))
    have hat : isPySpace '@' = false := by decide
    have hspt : isPySpace ' ' = true := by decide
    have hsp : isWordChar ' ' = false := by decide
    have hdrop : (String.mk ('@' :: (a ++ ' ' :: '@' :: (b ++ ' ' :: r)))).data.dropWhile isPySpace
        = '@' :: (a ++ ' ' :: '@' :: (b ++ ' ' :: r)) := by
      simp [List.dropWhile_cons, hat]
    rw [hdrop]
    have h1 : (a ++ ' ' :: '@' :: (b ++ ' ' :: r)).takeWhile isWordChar = a :=
      takeWhile_append_stop a ('@' :: (b ++ ' ' :: r)) ha' hsp
    have h2 : (a ++ ' ' :: '@' :: (b ++ ' ' :: r)).dropWhile isWordChar
        = ' ' :: ('@' :: (b ++ ' ' :: r)) :=
      dropWhile_append_stop a ('@' :: (b ++ ' ' :: r)) ha' hsp
    simp only [h1, h2]
    have ha0 : a.isEmpty = false := by cases a with
      | nil => exact absurd rfl ha
      | cons x xs => rfl
    simp only [ha0, Bool.false_eq_true, if_false]
    have h3 : (' ' :: ('@' :: (b ++ ' ' :: r))).takeWhile isPySpace = [' '] := by
      simp [List.takeWhile_cons, hspt, hat]
    have h4 : (' ' :: ('@' :: (b ++ ' ' :: r))).dropWhile isPySpace
        = '@' :: (b ++ ' ' :: r) := by
      simp [List.dropWhile_cons, hspt, hat]
    simp [h3, h4, hspt, hat]

/-- Witness for C10 at concrete mentions. -/
theorem remove_mention_prefix_spec_witness :
    remove_mention_prefix none = none ∧
    remove_mention_prefix (some (String.mk ('@' :: "bob".data))) =
      some (String.mk ('@' :: "bob".data)) ∧
    remove_mention_prefix
        (some (String.mk ('@' :: ("a".data ++ ' ' :: '@' :: ("b".data ++ ' ' :: "hi".data))))) =
      some (String.mk ('@' :: ("b".data ++ ' ' :: "hi".data))) :=
  remove_mention_prefix_spec "a".data "b".data "bob".data "hi".data
    (by decide) (by decide) (by decide) (by decide)

/-- **C9 (counterexample).** The claim quantifies over *every* id, but the
read-side filter drops comment-style lines: recording the id `"#1"` and
then checking membership returns `false`, not `true`. -/
theorem record_contains_hash_id_cex :
    ¬ "#1" ∈ read_replied_tweet_ids (add_replied_tweet_id [] "#1") := by
  decide

/-- **C9 (amended).** For every id that survives the read-side line filter
unchanged — stripping whitespace leaves it intact, it is non-empty, and it
does not start with `#` — recording it once or twice makes a subsequent
contains check true, and the second record does not change the resulting
set of ids. -/
theorem record_contains_spec (file : List String) (id : String)
    (h1 : pyStrip id = id) (h2 : id ≠ "") (h3 : startsWithHash id = false) :
    id ∈ read_replied_tweet_ids (add_replied_tweet_id file id) ∧
    id ∈ read_replied_tweet_ids
        (add_replied_tweet_id (add_replied_tweet_id file id) id) ∧
    read_replied_tweet_ids (add_replied_tweet_id (add_replied_tweet_id file id) id) =
      read_replied_tweet_ids (add_replied_tweet_id file id) := by
  have hkept : keptLine id = true := by
    unfold keptLine
    simp [h2, h3]
  refine ⟨?_, ?_, ?_⟩
  · unfold read_replied_tweet_ids add_replied_tweet_id
    simp [List.filter_append, h1, hkept]
  · unfold read_replied_tweet_ids add_replied_tweet_id
    simp [List.filter_append, h1, hkept]
  · unfold read_replied_tweet_ids add_replied_tweet_id
    simp only [List.map_append, List.map_cons, List.map_nil, List.filter_append,
      List.append_assoc]
    simp [h1, hkept, List.toFinset_append, Finset.union_assoc]

/-- Witness for C9 (amended) at a concrete digit id on an empty ledger. -/
theorem record_contains_spec_witness :
    "123" ∈ read_replied_tweet_ids (add_replied_tweet_id [] "123") ∧
    "123" ∈ read_replied_tweet_ids
        (add_replied_tweet_id (add_replied_tweet_id [] "123") "123") ∧
    read_replied_tweet_ids (add_replied_tweet_id (add_replied_tweet_id [] "123") "123") =
      read_replied_tweet_ids (add_replied_tweet_id [] "123") :=
  record_contains_spec [] "123" (by decide) (by decide) (by decide)

/-- **C7.** When a persisted token is no longer valid for more than 60
seconds and the refresh exchange succeeds without returning a new refresh
token, the record persisted to the token file (and whose access token is
returned) keeps the old refresh token; when the persisted token is valid
for more than 60 seconds, the cached access token is returned and the
on-disk record is unchanged. -/
theorem get_valid_token_spec (t : TokenRecord) (now : Int)
    (r : RefreshResponse) (init : Except String (String × TokenRecord))
    (hfresh : r.refresh_token = none) :
    (t.expires_at > now + 60 →
      get_valid_token (some t) now (some r) init = .ok (t.access_token, some t)) ∧
    (¬ t.expires_at > now + 60 →
      get_valid_token (some t) now (some r) init =
        .ok (r.access_token,
          some { access_token := r.access_token
                 refresh_token := t.refresh_token
                 expires_at := now + r.expires_in })) := by
  constructor
  · intro h
    unfold get_valid_token
    simp [h]
  · intro h
    unfold get_valid_token refresh_access_token
    simp [h, hfresh, Except.map]

/-- **C6.** `convert_question_urls` leaves a text with no
`question://<uuid>` token identical, and rewrites each token occurrence
`question://u` (`u` in 8-4-4-4-12 lower-case-hex format) to the configured
analytics URL concatenated with `u`, leaving surrounding text unchanged
(the recursive equation on the remainder `post` covers every further
occurrence). -/
theorem convert_question_urls_spec (analytics_url text pre post : String)
    (u : List Char) (h1 : NoTokenStart text) (hu : isUuidChars u = true)
    (hpre : ∀ i, i < pre.data.length →
      tryMatch ((pre.data ++ (qScheme ++ (u ++ post.data))).drop i) = none) :
    convert_question_urls analytics_url text = text ∧
    convert_question_urls analytics_url
        (pre ++ "question://" ++ String.mk u ++ post) =
      pre ++ analytics_url ++ String.mk u ++
        convert_question_urls analytics_url post := by
  constructor
  · unfold convert_question_urls
    rw [subScan_id _ _ h1]
  · unfold convert_question_urls
    apply String.ext
    show (subScan analytics_url.data
      (pre ++ "question://" ++ String.mk u ++ post).data) = _
    have harg : (pre ++ "question://" ++ String.mk u ++ post).data =
        pre.data ++ (qScheme ++ (u ++ post.data)) := by
      simp [String.data_append, qScheme, List.append_assoc]
    rw [harg, subScan_token analytics_url.data pre.data u post.data hu hpre]
    simp [String.data_append, List.append_assoc]

/-- Witness for C6 at a concrete analytics URL, token-free text, and
single-token text. -/
theorem convert_question_urls_spec_witness :
    convert_question_urls "https://delib.example/a?question="
        "hello world" = "hello world" ∧
    convert_question_urls "https://delib.example/a?question="
        ("see " ++ "question://" ++
          String.mk "0123abcd-4567-89ab-cdef-0123456789ab".data ++ " ok") =
      "see " ++ "https://delib.example/a?question=" ++
        String.mk "0123abcd-4567-89ab-cdef-0123456789ab".data ++
        convert_question_urls "https://delib.example/a?question=" " ok" :=
  convert_question_urls_spec "https://delib.example/a?question="
    "hello world" "see " " ok" "0123abcd-4567-89ab-cdef-0123456789ab".data
    (by decide) (by decide) (by decide)

/-- **C5 (counterexample).** With `max_tweets = 0` the claimed length bound
fails: one remaining tweet is more than `0`, and the Python slice
`formatted_tweets[-0:]` is the whole list, so the result has length 1, not
at most 0. -/
theorem conversation_history_tail_zero_cap_cex :
    (conversation_history_tail [⟨"1", "u", "t", some "2024"⟩] "9" 0).length = 1 ∧
      ¬ (conversation_history_tail [⟨"1", "u", "t", some "2024"⟩] "9" 0).length ≤ 0 := by
  decide

/-- **C5 (amended).** For `maxMessages ≥ 1`, every sequence returned by
`fetch_conversation_history`'s final processing is sorted by `created_at`
ascending, never contains the triggering tweet's id, and has length at
most `maxMessages`; when more candidates remain after excluding the
trigger, the latest `maxMessages` are kept: the result is a length-
`maxMessages` suffix of the sorted candidates and every discarded earlier
candidate sorts no later than every kept one.  (For `maxMessages = 0` the
bound fails, see the counterexample.) -/
theorem conversation_history_tail_spec (tweets : List FormattedTweet)
    (tweet_id : String) (m : Nat) (hm : 1 ≤ m) :
    List.Sorted tweetLe (conversation_history_tail tweets tweet_id m) ∧
    (∀ t ∈ conversation_history_tail tweets tweet_id m, t.id ≠ tweet_id) ∧
    (conversation_history_tail tweets tweet_id m).length ≤ m ∧
    (m < (candidateHistory tweets tweet_id).length →
      (conversation_history_tail tweets tweet_id m).length = m ∧
      conversation_history_tail tweets tweet_id m <:+ candidateHistory tweets tweet_id ∧
      ∀ x ∈ (candidateHistory tweets tweet_id).take
          ((candidateHistory tweets tweet_id).length - m),
        ∀ y ∈ conversation_history_tail tweets tweet_id m, tweetLe x y) := by
  have hsorted := candidateHistory_sorted tweets tweet_id
  have hnt := candidateHistory_not_trigger tweets tweet_id
  by_cases hcap : (candidateHistory tweets tweet_id).length > m
  · have hout : conversation_history_tail tweets tweet_id m =
        (candidateHistory tweets tweet_id).drop
          ((candidateHistory tweets tweet_id).length - m) := by
      unfold conversation_history_tail pyTakeLast
      simp only [hcap, if_true]
      have : m ≠ 0 := by omega
      simp [this]
    rw [hout]
    have hsub : ((candidateHistory tweets tweet_id).drop
        ((candidateHistory tweets tweet_id).length - m)).Sublist
        (candidateHistory tweets tweet_id) := List.drop_sublist _ _
    have hlen : ((candidateHistory tweets tweet_id).drop
        ((candidateHistory tweets tweet_id).length - m)).length = m := by
      rw [List.length_drop]; omega
    refine ⟨hsorted.sublist hsub, ?_, ?_, ?_⟩
    · intro t ht; exact hnt t (hsub.subset ht)
    · omega
    · intro _
      refine ⟨hlen, List.drop_suffix _ _, ?_⟩
      intro x hx y hy
      have hsplit := hsorted
      rw [← List.take_append_drop ((candidateHistory tweets tweet_id).length - m)
        (candidateHistory tweets tweet_id)] at hsplit
      exact (List.pairwise_append.1 hsplit).2.2 x hx y hy
  · have hout : conversation_history_tail tweets tweet_id m =
        candidateHistory tweets tweet_id := by
      unfold conversation_history_tail
      simp [hcap]
    rw [hout]
    exact ⟨hsorted, hnt, by omega, fun h => absurd h (by omega)⟩

/-- Witness for C5 (amended): three tweets, trigger excluded, cap 1 keeps
the latest. -/
theorem conversation_history_tail_spec_witness :
    List.Sorted tweetLe (conversation_history_tail
      [⟨"2", "u", "b", some "2"⟩, ⟨"9", "u", "x", some "9"⟩,
       ⟨"1", "u", "a", some "1"⟩] "9" 1) ∧
    (∀ t ∈ conversation_history_tail
      [⟨"2", "u", "b", some "2"⟩, ⟨"9", "u", "x", some "9"⟩,
       ⟨"1", "u", "a", some "1"⟩] "9" 1, t.id ≠ "9") ∧
    (conversation_history_tail
      [⟨"2", "u", "b", some "2"⟩, ⟨"9", "u", "x", some "9"⟩,
       ⟨"1", "u", "a", some "1"⟩] "9" 1).length ≤ 1 ∧
    (1 < (candidateHistory
      [⟨"2", "u", "b", some "2"⟩, ⟨"9", "u", "x", some "9"⟩,
       ⟨"1", "u", "a", some "1"⟩] "9").length →
      (conversation_history_tail
        [⟨"2", "u", "b", some "2"⟩, ⟨"9", "u", "x", some "9"⟩,
         ⟨"1", "u", "a", some "1"⟩] "9" 1).length = 1 ∧
      conversation_history_tail
        [⟨"2", "u", "b", some "2"⟩, ⟨"9", "u", "x", some "9"⟩,
         ⟨"1", "u", "a", some "1"⟩] "9" 1 <:+ candidateHistory
        [⟨"2", "u", "b", some "2"⟩, ⟨"9", "u", "x", some "9"⟩,
         ⟨"1", "u", "a", some "1"⟩] "9" ∧
      ∀ x ∈ (candidateHistory
        [⟨"2", "u", "b", some "2"⟩, ⟨"9", "u", "x", some "9"⟩,
         ⟨"1", "u", "a", some "1"⟩] "9").take
          ((candidateHistory
            [⟨"2", "u", "b", some "2"⟩, ⟨"9", "u", "x", some "9"⟩,
             ⟨"1", "u", "a", some "1"⟩] "9").length - 1),
        ∀ y ∈ conversation_history_tail
          [⟨"2", "u", "b", some "2"⟩, ⟨"9", "u", "x", some "9"⟩,
           ⟨"1", "u", "a", some "1"⟩] "9" 1, tweetLe x y) :=
  conversation_history_tail_spec
    [⟨"2", "u", "b", some "2"⟩, ⟨"9", "u", "x", some "9"⟩,
     ⟨"1", "u", "a", some "1"⟩] "9" 1 (by decide)

/-- **C1.** For a conversation context of length at least the continuation
threshold 5, `generate_reply` returns the continuation message generated
from the conversation alone (question:// URLs rewritten), performs no
deliberation-backend call (its call trace has no backend event), and its
result does not depend on the message text or the projectId argument. -/
theorem generate_reply_continuation (cfg : Config) (w : World)
    (user_text user_text' : String) (hist : List HistoryEntry)
    (pid pid' : Option String) (hlen : 5 ≤ hist.length) :
    (generate_reply cfg w user_text hist pid).1 =
      (w.complete (continuationMessages cfg hist)).map
        (fun m => some (convert_question_urls cfg.analyticsUrl m)) ∧
    (generate_reply cfg w user_text hist pid).2.filter isBackendCall = [] ∧
    generate_reply cfg w user_text hist pid =
      generate_reply cfg w user_text' hist pid' := by
  have hred : ∀ (ut : String) (p : Option String),
      generate_reply cfg w ut hist p =
        ((generate_continuation_message cfg w hist).1.map some,
          (generate_continuation_message cfg w hist).2) := by
    intro ut p
    unfold generate_reply
    rw [if_pos hlen]
  refine ⟨?_, ?_, by rw [hred, hred]⟩
  · rw [hred]
    rcases hc : w.complete (continuationMessages cfg hist) with e | m <;>
      simp [generate_continuation_message, hc, Except.map]
  · rw [hred]
    rcases hc : w.complete (continuationMessages cfg hist) with e | m <;>
      simp [generate_continuation_message, hc, isBackendCall]

/-- Witness for C1 at a concrete five-message history. -/
theorem generate_reply_continuation_witness :
    (generate_reply cfg0 emptyWorld "hi" hist5 (some "p")).1 =
      (emptyWorld.complete (continuationMessages cfg0 hist5)).map
        (fun m => some (convert_question_urls cfg0.analyticsUrl m)) ∧
    (generate_reply cfg0 emptyWorld "hi" hist5 (some "p")).2.filter
      isBackendCall = [] ∧
    generate_reply cfg0 emptyWorld "hi" hist5 (some "p") =
      generate_reply cfg0 emptyWorld "other" hist5 none :=
  generate_reply_continuation cfg0 emptyWorld "hi" "other" hist5
    (some "p") none (by decide)

/-- **C2 (counterexample).** The add-comment response `emptyQResp` carries a
non-neutral stance (so the claim asserts the stance-grounded branch and a
stance-analysis fetch), but because that stance's `questionId` is the empty
string — falsy in the `if has_stances and question_id:` test —
`generate_reply` instead performs the project-report fallback: its call
trace is add-comment, project-report, completion, with no stance-report
call. -/
theorem generate_reply_first_stance_cex :
    ((emptyQResp.comments.flatMap Comment.stances).filter
        (fun st => st.stanceId ≠ some "neutral")) ≠ [] ∧
    (generate_reply cfg0 emptyQWorld "hi" [] (some "p")).2 =
      [ApiCall.addComment, ApiCall.projectReport, ApiCall.completion] := by
  constructor
  · decide
  · rfl

/-- **C2 (amended).** For every add-comment response whose first non-neutral
stance (in comment-then-stance iteration order, independent of confidence)
has a non-empty `questionId` `q`, `generate_reply` (below the threshold,
with a truthy projectId) runs exactly the stance-grounded branch for `q`:
it fetches `q`'s stance-analysis report — never the project report — and
generates the reply from a prompt embedding that report.  (When the first
non-neutral stance's `questionId` is missing or empty the code falls
through to the project-report branch instead; see the counterexample.) -/
theorem generate_reply_stance_branch (cfg : Config) (w : World) (u : String)
    (hist : List HistoryEntry) (pid : Option String) (resp : CommentResponse)
    (s : Stance) (q : String)
    (hlen : hist.length < 5) (hpid : pyTruthy pid = true)
    (hresp : w.addComment (delibCommentContent u hist) = .ok resp)
    (hsel : ((resp.comments.flatMap Comment.stances).filter
        (fun st => st.stanceId ≠ some "neutral")).head? = some s)
    (hq : s.questionId = some q) (hq0 : q ≠ "") :
    (generate_reply cfg w u hist pid).1 =
      pyCatch (generate_reply_case1 cfg w u hist q).1 ∧
    ApiCall.stanceReport q ∈ (generate_reply cfg w u hist pid).2 ∧
    ApiCall.projectReport ∉ (generate_reply cfg w u hist pid).2 ∧
    (∀ rep out, w.stanceReport q = .ok rep →
      w.complete (stanceMessages cfg u rep hist) = .ok out →
      (generate_reply cfg w u hist pid).1 =
        .ok (some (convert_question_urls cfg.analyticsUrl out))) := by
  have hselq : selectQuestion resp.comments = (true, some q) := by
    rcases hflt : (resp.comments.flatMap Comment.stances).filter
        (fun st => st.stanceId ≠ some "neutral") with _ | ⟨s', tl⟩
    · rw [hflt] at hsel; simp at hsel
    · rw [hflt] at hsel
      simp only [List.head?_cons, Option.some.injEq] at hsel
      subst hsel
      rw [selectQuestion_eq_flat, hflt]
      dsimp only
      rw [hq]
  have hred := generate_reply_below cfg w u hist pid hlen hpid
  have hbody := generate_reply_body_ok cfg w u hist resp hresp
  rw [hselq] at hbody
  simp only [if_neg hq0] at hbody
  rw [hred, hbody]
  refine ⟨rfl, ?_, ?_, ?_⟩
  · rcases generate_reply_case1_trace cfg w u hist q with h | h <;> simp [h]
  · rcases generate_reply_case1_trace cfg w u hist q with h | h <;> simp [h]
  · intro rep out hrep hout
    simp [pyCatch, generate_reply_case1, get_stance_analysis_report,
      generate_reply_with_stance_analysis, hrep, hout]

/-- Witness for C2 (amended): a response with one non-neutral stance on
question `"q1"`. -/
theorem generate_reply_stance_branch_witness :
    (generate_reply cfg0 stanceWorld "hi" [] (some "p")).1 =
      pyCatch (generate_reply_case1 cfg0 stanceWorld "hi" [] "q1").1 ∧
    ApiCall.stanceReport "q1" ∈
      (generate_reply cfg0 stanceWorld "hi" [] (some "p")).2 ∧
    ApiCall.projectReport ∉
      (generate_reply cfg0 stanceWorld "hi" [] (some "p")).2 ∧
    (∀ rep out, stanceWorld.stanceReport "q1" = .ok rep →
      stanceWorld.complete (stanceMessages cfg0 "hi" rep []) = .ok out →
      (generate_reply cfg0 stanceWorld "hi" [] (some "p")).1 =
        .ok (some (convert_question_urls cfg0.analyticsUrl out))) :=
  generate_reply_stance_branch cfg0 stanceWorld "hi" [] (some "p") stanceResp
    ⟨some "q1", some "agree", some 80⟩ "q1"
    (by decide) (by decide) rfl (by decide) rfl (by decide)

/-- **C3.** When the add-comment response has no comments, or all its
stances are neutral, `generate_reply` (below the threshold, with a truthy
projectId) fetches the whole project's analysis report and generates the
reply from a prompt embedding it, returning that reply rather than null;
its call trace is add-comment, project-report, completion. -/
theorem generate_reply_project_fallback (cfg : Config) (w : World)
    (u : String) (hist : List HistoryEntry) (pid : Option String)
    (resp : CommentResponse) (rep out : String)
    (hlen : hist.length < 5) (hpid : pyTruthy pid = true)
    (hresp : w.addComment (delibCommentContent u hist) = .ok resp)
    (hneutral : ∀ s ∈ resp.comments.flatMap Comment.stances,
      s.stanceId = some "neutral")
    (hrep : w.projectReport = .ok rep)
    (hout : w.complete (projectMessages cfg u rep hist) = .ok out) :
    (generate_reply cfg w u hist pid).1 =
      .ok (some (convert_question_urls cfg.analyticsUrl out)) ∧
    (generate_reply cfg w u hist pid).2 =
      [ApiCall.addComment, ApiCall.projectReport, ApiCall.completion] := by
  have hflt : (resp.comments.flatMap Comment.stances).filter
      (fun st => st.stanceId ≠ some "neutral") = [] := by
    rw [List.filter_eq_nil_iff]
    intro a ha
    simp [hneutral a ha]
  have hselq : selectQuestion resp.comments = (false, none) := by
    rw [selectQuestion_eq_flat, hflt]
  have hred := generate_reply_below cfg w u hist pid hlen hpid
  have hbody := generate_reply_body_ok cfg w u hist resp hresp
  rw [hselq] at hbody
  rw [hred, hbody]
  constructor
  · simp [pyCatch, generate_reply_case2, get_project_analysis_report,
      generate_reply_with_project_report, hrep, hout]
  · simp [generate_reply_case2, get_project_analysis_report,
      generate_reply_with_project_report, hrep, hout]

/-- Witness for C3: a zero-comment response. -/
theorem generate_reply_project_fallback_witness :
    (generate_reply cfg0 emptyWorld "hi" [] (some "p")).1 =
      .ok (some (convert_question_urls cfg0.analyticsUrl "generated reply")) ∧
    (generate_reply cfg0 emptyWorld "hi" [] (some "p")).2 =
      [ApiCall.addComment, ApiCall.projectReport, ApiCall.completion] :=
  generate_reply_project_fallback cfg0 emptyWorld "hi" [] (some "p")
    ⟨[]⟩ "project-report" "generated reply"
    (by decide) (by decide) rfl (by decide) rfl rfl

/-- **C4 (counterexample).** On the continuation branch (context length 5)
a completion-API exception is *not* caught: `generate_reply` propagates
`.error "boom"` to the caller instead of returning null, because the `try`
block begins only after the continuation check. -/
theorem generate_reply_raise_continuation_cex :
    (generate_reply cfg0 failWorld "hi" hist5 (some "p")).1 = .error "boom" ∧
    (generate_reply cfg0 failWorld "hi" hist5 (some "p")).1 ≠ .ok none := by
  constructor
  · rfl
  · decide

/-- **C4 (amended).** Below the continuation threshold, `generate_reply`
never propagates an exception: it always returns an `.ok` outcome; in
particular an exception while submitting the comment yields null, and if
every completion call raises the result is null on every branch.  (On the
continuation branch, context length ≥ 5, a completion exception propagates
to the caller — see the counterexample.) -/
theorem generate_reply_catch_below_threshold (cfg : Config) (w : World)
    (u : String) (hist : List HistoryEntry) (pid : Option String) (e : String)
    (hlen : hist.length < 5) :
    (∃ r, (generate_reply cfg w u hist pid).1 = .ok r) ∧
    (pyTruthy pid = true →
      w.addComment (delibCommentContent u hist) = .error e →
      (generate_reply cfg w u hist pid).1 = .ok none) ∧
    (pyTruthy pid = true → (∀ ms, w.complete ms = .error e) →
      (generate_reply cfg w u hist pid).1 = .ok none) := by
  have hne5 : ¬ 5 ≤ hist.length := by omega
  refine ⟨?_, ?_, ?_⟩
  · cases hp : pyTruthy pid
    · refine ⟨none, ?_⟩
      unfold generate_reply
      rw [if_neg hne5, hp]
      rfl
    · have hred := generate_reply_below cfg w u hist pid hlen hp
      rw [hred]
      rcases hb : (generate_reply_body cfg w u hist).1 with er | reply
      · exact ⟨none, by simp [hb, pyCatch]⟩
      · exact ⟨some reply, by simp [hb, pyCatch]⟩
  · intro hp haddc
    have hred := generate_reply_below cfg w u hist pid hlen hp
    rw [hred]
    have hbody : (generate_reply_body cfg w u hist).1 = .error e := by
      simp [generate_reply_body, add_comment_to_delib, haddc]
    simp [hbody, pyCatch]
  · intro hp hcomp
    have hred := generate_reply_below cfg w u hist pid hlen hp
    rw [hred]
    have hc1 : ∀ q, ∃ er, (generate_reply_case1 cfg w u hist q).1 = .error er := by
      intro q
      rcases hsr : w.stanceReport q with er | rep
      · exact ⟨er, by simp [generate_reply_case1, get_stance_analysis_report, hsr]⟩
      · exact ⟨e, by simp [generate_reply_case1, get_stance_analysis_report, hsr,
          generate_reply_with_stance_analysis, hcomp]⟩
    have hc2 : ∃ er, (generate_reply_case2 cfg w u hist).1 = .error er := by
      rcases hpr : w.projectReport with er | rep
      · exact ⟨er, by simp [generate_reply_case2, get_project_analysis_report, hpr]⟩
      · exact ⟨e, by simp [generate_reply_case2, get_project_analysis_report, hpr,
          generate_reply_with_project_report, hcomp]⟩
    have hbody : ∃ er, (generate_reply_body cfg w u hist).1 = .error er := by
      rcases haddc : w.addComment (delibCommentContent u hist) with er | resp
      · exact ⟨er, by simp [generate_reply_body, add_comment_to_delib, haddc]⟩
      · have hb := generate_reply_body_ok cfg w u hist resp haddc
        rw [hb]
        rcases hsel : selectQuestion resp.comments with ⟨hs, oq⟩
        cases hs <;> rcases oq with _ | q
        · simpa using hc2
        · simpa using hc2
        · simpa using hc2
        · by_cases hq : q = ""
          · simp only [if_pos hq]
            simpa using hc2
          · simp only [if_neg hq]
            simpa using hc1 q
    obtain ⟨er, hbody⟩ := hbody
    simp [hbody, pyCatch]

/-- Witness for C4 (amended) at a concrete all-failing world below the
threshold. -/
theorem generate_reply_catch_below_threshold_witness :
    (∃ r, (generate_reply cfg0 failWorld "hi" [] (some "p")).1 = .ok r) ∧
    (pyTruthy (some "p") = true →
      failWorld.addComment (delibCommentContent "hi" []) = .error "boom" →
      (generate_reply cfg0 failWorld "hi" [] (some "p")).1 = .ok none) ∧
    (pyTruthy (some "p") = true →
      (∀ ms, failWorld.complete ms = .error "boom") →
      (generate_reply cfg0 failWorld "hi" [] (some "p")).1 = .ok none) :=
  generate_reply_catch_below_threshold cfg0 failWorld "hi" [] (some "p")
    "boom" (by decide)

/-- Witness for C7 at concrete token records (expired and fresh cases). -/
theorem get_valid_token_spec_witness :
    (get_valid_token (some ⟨"acc", "ref", 1000⟩) 2000
        (some ⟨"acc2", 7200, none⟩) (.error "unused") =
      .ok ("acc2", some ⟨"acc2", "ref", 2000 + 7200⟩)) ∧
    (get_valid_token (some ⟨"acc", "ref", 5000⟩) 2000
        (some ⟨"acc2", 7200, none⟩) (.error "unused") =
      .ok ("acc", some ⟨"acc", "ref", 5000⟩)) :=
  ⟨(get_valid_token_spec ⟨"acc", "ref", 1000⟩ 2000 ⟨"acc2", 7200, none⟩
      (.error "unused") rfl).2 (by decide),
   (get_valid_token_spec ⟨"acc", "ref", 5000⟩ 2000 ⟨"acc2", 7200, none⟩
      (.error "unused") rfl).1 (by decide)⟩
